import Mathlib

/-!
Shallow embedding of `src/airflow/dag_processing/bundles/git.py`
(`GitDagBundle`): a git repository exposed as a versioned DAG bundle,
with a shared bare mirror per bundle name and one working copy per
requested version or tracking ref.

Commits are identified by their hexsha strings; a commit's tree is
identified with the commit id itself (git is content-addressed, so two
working copies match the same tree exactly when they match the same
commit).  Side effects of the git library (`clone_from`, `fetch`,
`pull`, `checkout`, `head.set_reference` + `head.reset`) are modelled
as explicit state transitions on a `GitWorld`, recorded in order in a
trace of `GitOp` events; Python exceptions are modelled by an `err`
field carrying the exception that propagates, with the world left as it
was at the moment of the raise (partial state stays on disk).

Python string primitives (`str.split`, `str.replace`, `str.startswith`,
`str.endswith`, `str.lower`) are modelled by executable functions over
`String.data` so that every definition evaluates inside the kernel.
-/

set_option autoImplicit false

namespace GitBundle

/-- Modelled behaviour of Python `s.startswith(pre)`. -/
def pyStartsWith (s pre : String) : Bool :=
  pre.data.isPrefixOf s.data

/-- Modelled behaviour of Python `s.endswith(suf)`. -/
def pyEndsWith (s suf : String) : Bool :=
  suf.data.isSuffixOf s.data

/-- Fuel-driven worker for `pySplit`: splits at every non-overlapping
occurrence of the (non-empty) separator, scanning left to right.  The fuel
is an upper bound on the number of characters consumed; each step consumes
at least one, so `s.length` fuel always suffices. -/
def pySplitFuel (sep : List Char) : Nat → List Char → List (List Char)
  | _, [] => [[]]
  | 0, s => [s]
  | Nat.succ fuel, c :: rest =>
    if sep ≠ [] ∧ sep.isPrefixOf (c :: rest) then
      [] :: pySplitFuel sep fuel ((c :: rest).drop sep.length)
    else
      match pySplitFuel sep fuel rest with
      | seg :: segs => (c :: seg) :: segs
      | [] => [[c]]

/-- Modelled behaviour of Python `s.split(sep)` for a non-empty separator:
all the pieces between occurrences of `sep`, empty pieces preserved. -/
def pySplit (sep s : String) : List String :=
  (pySplitFuel sep.data s.data.length s.data).map List.asString

/-- Fuel-driven worker for `pyReplace`: replaces every non-overlapping
occurrence of the (non-empty) pattern, scanning left to right. -/
def pyReplaceFuel (pat repl : List Char) : Nat → List Char → List Char
  | _, [] => []
  | 0, s => s
  | Nat.succ fuel, c :: rest =>
    if pat ≠ [] ∧ pat.isPrefixOf (c :: rest) then
      repl ++ pyReplaceFuel pat repl fuel ((c :: rest).drop pat.length)
    else
      c :: pyReplaceFuel pat repl fuel rest

/-- Modelled behaviour of Python `s.replace(pat, repl)` for a non-empty
pattern: every non-overlapping occurrence is replaced, left to right. -/
def pyReplace (s pat repl : String) : String :=
  (pyReplaceFuel pat.data repl.data s.data.length s.data).asString

/-- Join a list of strings with a separator (Python `sep.join(parts)`). -/
def pyJoin (sep : String) : List String → String
  | [] => ""
  | [x] => x
  | x :: xs => x ++ sep ++ pyJoin sep xs

/-- Modelled behaviour of Python `s.lower()` for the ASCII hostnames used
here. -/
def pyLower (s : String) : String :=
  (s.data.map Char.toLower).asString

/-- Python truthiness of `self.version : str | None`:
`None` and the empty string are falsy. -/
def pyTruthy : Option String → Bool
  | none => false
  | some s => !(s == "")

/-- Python `a or b` for `a : str | None`, `b : str`. -/
def pyOrElse (a : Option String) (b : String) : String :=
  match a with
  | none => b
  | some s => if s == "" then b else s

/-- Exceptions the bundle code can raise:
`versionNotFound` is `AirflowException "Version ... not found in the repository"`
(line 95); `refreshNotSupported` is
`AirflowException "Refreshing a specific version is not supported"` (line 126);
`invalidSourceURL` is `ValueError "Invalid git SSH URL: ..."` (line 133);
`indexError` is Python's uncaught `IndexError` from `parts[1]` (line 136);
`badName` is `git.exc.BadName` escaping from `repo.commit` (line 67). -/
inductive BundleError where
  | versionNotFound (v : String)
  | refreshNotSupported
  | invalidSourceURL
  | indexError
  | badName
  deriving DecidableEq, Repr

/-- The constructor arguments of `GitDagBundle.__init__` together with the
fields inherited from `BaseDagBundle` that the class reads
(`self.name`, `self.version`, `self._dag_bundle_root_storage_path`). -/
structure BundleConfig where
  repo_url : String
  tracking_ref : String
  subdir : Option String
  name : String
  version : Option String
  root_storage_path : String
  deriving DecidableEq, Repr

/-- Line 54: `self.bare_repo_path = self._dag_bundle_root_storage_path / "git" / self.name`. -/
def bare_repo_path (cfg : BundleConfig) : String :=
  cfg.root_storage_path ++ "/git/" ++ cfg.name

/-- Lines 55-57: `self.repo_path = self._dag_bundle_root_storage_path / "git" /
(self.name + "+" + (self.version or self.tracking_ref))`. -/
def repo_path (cfg : BundleConfig) : String :=
  cfg.root_storage_path ++ "/git/" ++ (cfg.name ++ "+" ++ pyOrElse cfg.version cfg.tracking_ref)

/-- Abstract state of one local git repository (the bare mirror or the
working copy).  `commits` are the commits resolvable in it, `trackingTip` the
commit its copy of the bundle's tracking ref points at, `head` the commit
HEAD resolves to, `index` and `worktree` the trees (identified with commit
ids) that the index and the on-disk files currently match. -/
structure GitRepo where
  commits : List String
  trackingTip : String
  head : String
  index : String
  worktree : String
  deriving DecidableEq, Repr

/-- The state a bundle instance operates on: the origin remote's history
(commits reachable from its branch heads, the tip of the tracking ref, and
the tip of the default branch a fresh clone checks out), plus whatever is on
disk at `bare_repo_path` and `repo_path`.  `bare`/`repo` are meaningful only
when the corresponding `Exists` flag is true; leaving them arbitrary
otherwise models arbitrary leftover state from earlier runs. -/
structure GitWorld where
  originCommits : List String
  originTrackingTip : String
  originDefaultTip : String
  bareExists : Bool
  bare : GitRepo
  repoExists : Bool
  repo : GitRepo
  deriving DecidableEq, Repr

/-- The observable git-library calls, in execution order.
`cloneBare url` is `Repo.clone_from(url=self.repo_url, ..., bare=True)`
(network); `cloneWorkingCopy url` is `Repo.clone_from(url=self.bare_repo_path,
to_path=self.repo_path)` (local filesystem); `fetchBareAllBranches` is the
all-branch-refspec fetch `self.bare_repo.remotes.origin.fetch(...)` (network);
`fetchWorkingCopy` is `self.repo.remotes.origin.fetch()` whose origin is the
local mirror; `pullWorkingCopy` is `self.repo.remotes.origin.pull()` from the
local mirror; `checkout` is `self.repo.git.checkout(self.tracking_ref)`;
`setHeadAndReset c` is `self.repo.head.set_reference(self.repo.commit(c))`
followed by `self.repo.head.reset(index=True, working_tree=True)`. -/
inductive GitOp where
  | cloneBare (url : String)
  | cloneWorkingCopy (url : String)
  | fetchBareAllBranches
  | fetchWorkingCopy
  | pullWorkingCopy
  | checkout (ref : String)
  | setHeadAndReset (commit : String)
  deriving DecidableEq, Repr

/-- Whether an operation contacts the true origin remote over the network.
The bare mirror's `origin` is `repo_url`; the working copy's `origin` is the
local mirror, so its fetch/pull and its creation are local-filesystem work. -/
def GitOp.isNetwork : GitOp → Bool
  | .cloneBare _ => true
  | .fetchBareAllBranches => true
  | _ => false

/-- Result of running a method body: the world afterwards, the trace of git
operations it performed, and the exception that escaped, if any. -/
structure StepResult where
  world : GitWorld
  ops : List GitOp
  err : Option BundleError
  deriving DecidableEq, Repr

/-- A normally-returning step. -/
def StepResult.pass (w : GitWorld) (ops : List GitOp) : StepResult :=
  ⟨w, ops, none⟩

/-- Sequencing of statements: once an exception has been raised, nothing
further runs; otherwise traces accumulate in order. -/
def StepResult.andThen (r : StepResult) (f : GitWorld → StepResult) : StepResult :=
  match r.err with
  | some _ => r
  | none =>
    let s := f r.world
    ⟨s.world, r.ops ++ s.ops, s.err⟩

/-- Lines 116-122, `GitDagBundle._has_version`: `repo.commit(version)`
succeeds exactly when the commit is resolvable in `repo`. -/
def has_version (repo : GitRepo) (version : String) : Bool :=
  repo.commits.contains version

/-- Lines 80-87, `GitDagBundle._clone_bare_repo_if_required`: if nothing is
on disk at `bare_repo_path`, bare-clone the origin there (full history: all
branch-reachable commits, tracking tip, HEAD on the default branch); then
open it.  Opening an existing mirror changes nothing. -/
def clone_bare_repo_if_required (cfg : BundleConfig) (w : GitWorld) : StepResult :=
  if w.bareExists then .pass w []
  else
    let bare : GitRepo :=
      { commits := w.originCommits
        trackingTip := w.originTrackingTip
        head := w.originDefaultTip
        index := w.originDefaultTip
        worktree := w.originDefaultTip }
    .pass { w with bareExists := true, bare := bare } [.cloneBare cfg.repo_url]

/-- Lines 89-95, `GitDagBundle._ensure_version_in_bare_repo`: nothing to do
for a falsy version; otherwise check the mirror for the commit, and when it
is absent fetch all branch refs from origin (bringing in every commit
reachable from origin's branch heads and updating the mirror's tracking tip)
and re-check, raising `versionNotFound` when it is still absent. -/
def ensure_version_in_bare_repo (cfg : BundleConfig) (w : GitWorld) : StepResult :=
  match cfg.version with
  | none => .pass w []
  | some v =>
    if v == "" then .pass w []
    else if has_version w.bare v then .pass w []
    else
      let bare' : GitRepo :=
        { w.bare with
            commits := w.bare.commits ++ w.originCommits
            trackingTip := w.originTrackingTip }
      let w' := { w with bare := bare' }
      if has_version bare' v then .pass w' [.fetchBareAllBranches]
      else ⟨w', [.fetchBareAllBranches], some (.versionNotFound v)⟩

/-- Lines 72-78, `GitDagBundle._clone_repo_if_required`: if nothing is on
disk at `repo_path`, clone the working copy from the mirror's local path
(`url=self.bare_repo_path`), inheriting the mirror's commits and tracking
tip, with the mirror's HEAD branch checked out; then open it.  Opening an
existing working copy changes nothing. -/
def clone_repo_if_required (cfg : BundleConfig) (w : GitWorld) : StepResult :=
  if w.repoExists then .pass w []
  else
    let repo : GitRepo :=
      { commits := w.bare.commits
        trackingTip := w.bare.trackingTip
        head := w.bare.head
        index := w.bare.head
        worktree := w.bare.head }
    .pass { w with repoExists := true, repo := repo }
      [.cloneWorkingCopy (bare_repo_path cfg)]

/-- Line 61: `self.repo.git.checkout(self.tracking_ref)` — move HEAD of the
working copy onto its local tracking ref.  Checkout carries local
modifications along rather than discarding them, so `index` and `worktree`
are left as they were; only the later hard reset cleans them. -/
def checkout_tracking (cfg : BundleConfig) (w : GitWorld) : StepResult :=
  .pass { w with repo := { w.repo with head := w.repo.trackingTip } }
    [.checkout cfg.tracking_ref]

/-- Lines 124-129, `GitDagBundle.refresh`: raise `refreshNotSupported` at
once when a version is pinned; otherwise fetch all branch refs into the
mirror from origin and fast-forward-pull the working copy from the mirror,
advancing its tracking ref, HEAD, index and worktree to the new tip. -/
def refresh (cfg : BundleConfig) (w : GitWorld) : StepResult :=
  if pyTruthy cfg.version then ⟨w, [], some .refreshNotSupported⟩
  else
    let bare' : GitRepo :=
      { w.bare with
          commits := w.bare.commits ++ w.originCommits
          trackingTip := w.originTrackingTip }
    let tip := bare'.trackingTip
    let repo' : GitRepo :=
      { commits := w.repo.commits ++ bare'.commits
        trackingTip := tip
        head := tip
        index := tip
        worktree := tip }
    .pass { w with bare := bare', repo := repo' }
      [.fetchBareAllBranches, .pullWorkingCopy]

/-- Lines 63-68, the pinned branch of `__init__`: when the pinned commit is
not yet resolvable in the working copy, fetch once from the working copy's
origin (the local mirror, bringing in the mirror's commits); then detach
HEAD onto the commit and hard-reset index and working tree to its tree.
`repo.commit` on a still-unresolvable id raises `BadName`. -/
def pin_version (cfg : BundleConfig) (w : GitWorld) : StepResult :=
  match cfg.version with
  | none => ⟨w, [], some .badName⟩
  | some v =>
    let fetchStep : StepResult :=
      if has_version w.repo v then .pass w []
      else
        .pass { w with repo := { w.repo with commits := w.repo.commits ++ w.bare.commits } }
          [.fetchWorkingCopy]
    fetchStep.andThen fun w1 =>
      if has_version w1.repo v then
        .pass { w1 with repo := { w1.repo with head := v, index := v, worktree := v } }
          [.setHeadAndReset v]
      else ⟨w1, [], some .badName⟩

/-- Lines 58-70, the body of `GitDagBundle.__init__` after the attribute
assignments: ensure the mirror, ensure a pinned version is in it, ensure the
working copy, check out the tracking ref, then either pin (detach and hard
reset) or perform the initial refresh. -/
def init (cfg : BundleConfig) (w : GitWorld) : StepResult :=
  (clone_bare_repo_if_required cfg w).andThen fun w1 =>
    (ensure_version_in_bare_repo cfg w1).andThen fun w2 =>
      (clone_repo_if_required cfg w2).andThen fun w3 =>
        (checkout_tracking cfg w3).andThen fun w4 =>
          if pyTruthy cfg.version then pin_version cfg w4
          else refresh cfg w4

/-- Lines 107-108, `GitDagBundle.get_current_version`: the working copy's
HEAD commit hexsha, read from current state. -/
def get_current_version (w : GitWorld) : String :=
  w.repo.head

/-- Lines 131-137, `GitDagBundle._convert_git_ssh_url_to_https`: require the
`git@` prefix (else `ValueError`), split the URL on every `:`; the domain is
the first segment with every `git@` replaced by `https://`, the path is the
second segment (`parts[1]`, raising `IndexError` when there is no `:`) with
every `.git` occurrence removed. -/
def convert_git_ssh_url_to_https (repo_url : String) : Except BundleError String :=
  if !pyStartsWith repo_url "git@" then .error .invalidSourceURL
  else
    match pySplit ":" repo_url with
    | p0 :: p1 :: _ =>
      .ok (pyReplace p0 "git@" "https://" ++ "/" ++ pyReplace p1 ".git" "")
    | _ => .error .indexError

/-- Modelled behaviour of the library call `urllib.parse.urlparse(url).hostname`:
the network location is the text between the first `//` and the next `/`,
`?` or `#`; the hostname is that text after the last user-info `@`, before a
`:` port marker, lower-cased; `None` when the URL has no `//` or the host is
empty.  (IPv6 bracket syntax is not modelled; no input here uses it.) -/
def urlparse_hostname (url : String) : Option String :=
  match pySplit "//" url with
  | _ :: r :: rs =>
    let rest := pyJoin "//" (r :: rs)
    let netloc := ((pySplit "/" rest).getD 0 "")
    let netloc := ((pySplit "?" netloc).getD 0 "")
    let netloc := ((pySplit "#" netloc).getD 0 "")
    let hostport := (pySplit "@" netloc).getLastD ""
    let host := pyLower ((pySplit ":" hostport).getD 0 "")
    if host == "" then none else some host
  | _ => none

/-- Lines 139-157, `GitDagBundle.view_url`: `None` for a falsy version;
convert a `git@` URL to https first (which may raise); extract the hostname;
then match it (exactly or as a subdomain) against the fixed providers in
dict order — github, gitlab, bitbucket — each with its own path template;
otherwise `None`. -/
def view_url (repo_url : String) (version : Option String) : Except BundleError (Option String) :=
  match version with
  | none => .ok none
  | some v =>
    if v == "" then .ok none
    else
      let urlE : Except BundleError String :=
        if pyStartsWith repo_url "git@" then convert_git_ssh_url_to_https repo_url
        else .ok repo_url
      match urlE with
      | .error e => .error e
      | .ok url =>
        match urlparse_hostname url with
        | none => .ok none
        | some host =>
          if host == "github.com" || pyEndsWith host ".github.com" then
            .ok (some (url ++ "/tree/" ++ v))
          else if host == "gitlab.com" || pyEndsWith host ".gitlab.com" then
            .ok (some (url ++ "/-/tree/" ++ v))
          else if host == "bitbucket.org" || pyEndsWith host ".bitbucket.org" then
            .ok (some (url ++ "/src/" ++ v))
          else .ok none

/-- A concrete leftover repository state used by the witnesses. -/
def sampleRepoState : GitRepo :=
  { commits := ["stale"], trackingTip := "stale", head := "stale", index := "dirty", worktree := "dirtier" }

/-- A concrete world with nothing on disk yet, used by the witnesses. -/
def sampleWorld : GitWorld :=
  { originCommits := ["deadbeef", "cafe"], originTrackingTip := "cafe",
    originDefaultTip := "cafe", bareExists := false, bare := sampleRepoState,
    repoExists := false, repo := sampleRepoState }

/-- A concrete world with a current mirror but a stale working copy that
predates the pinned commit, used by the witnesses. -/
def sampleWorldReady : GitWorld :=
  { originCommits := ["deadbeef", "cafe"], originTrackingTip := "cafe",
    originDefaultTip := "cafe", bareExists := true,
    bare := { commits := ["deadbeef", "cafe"], trackingTip := "cafe", head := "cafe", index := "cafe", worktree := "cafe" },
    repoExists := true,
    repo := { commits := ["old"], trackingTip := "old", head := "old", index := "x", worktree := "y" } }

/-- A concrete pinned configuration used by the witnesses. -/
def sampleCfg : BundleConfig :=
  { repo_url := "https://github.com/org/repo", tracking_ref := "main", subdir := none,
    name := "mybundle", version := some "deadbeef", root_storage_path := "/store" }

/-- A concrete configuration pinning a commit that origin does not have,
used by the witnesses. -/
def missingCfg : BundleConfig :=
  { repo_url := "https://github.com/org/repo", tracking_ref := "main", subdir := none,
    name := "mybundle", version := some "feedface", root_storage_path := "/store" }

/-- A concrete world whose mirror exists but lacks the pinned commit, used
by the witnesses. -/
def staleMirrorWorld : GitWorld :=
  { originCommits := ["cafe"], originTrackingTip := "cafe", originDefaultTip := "cafe",
    bareExists := true,
    bare := { commits := ["cafe"], trackingTip := "cafe", head := "cafe", index := "cafe", worktree := "cafe" },
    repoExists := false, repo := sampleRepoState }

end GitBundle

namespace GitBundle

/-- `_has_version` answers exactly membership of the commit in the
repository's resolvable commits. -/
theorem has_version_iff (r : GitRepo) (v : String) :
    has_version r v = true ↔ v ∈ r.commits := by
  simp [has_version]

/-- Sequencing after a normally-returning step runs the continuation and
prepends the step's trace. -/
theorem pass_andThen (w : GitWorld) (ops : List GitOp) (f : GitWorld → StepResult) :
    (StepResult.pass w ops).andThen f = ⟨(f w).world, ops ++ (f w).ops, (f w).err⟩ := rfl

/-- Sequencing after a normally-returning step, stated on the raw record. -/
theorem mk_none_andThen (w : GitWorld) (ops : List GitOp) (f : GitWorld → StepResult) :
    (StepResult.mk w ops none).andThen f = ⟨(f w).world, ops ++ (f w).ops, (f w).err⟩ := rfl

/-- Sequencing after a raised exception short-circuits. -/
theorem raise_andThen (w : GitWorld) (ops : List GitOp) (e : BundleError)
    (f : GitWorld → StepResult) :
    (StepResult.mk w ops (some e)).andThen f = ⟨w, ops, some e⟩ := rfl

/-- What `_clone_bare_repo_if_required` does: it never fails, afterwards the
mirror exists, the origin and the working copy are untouched, and either the
mirror was already there (opened as-is, no operation) or it is a fresh full
clone of origin reached by one network clone. -/
theorem clone_bare_spec (cfg : BundleConfig) (w : GitWorld) :
    ∃ wA ops,
      clone_bare_repo_if_required cfg w = .pass wA ops ∧
      wA.bareExists = true ∧
      wA.originCommits = w.originCommits ∧
      wA.originTrackingTip = w.originTrackingTip ∧
      wA.originDefaultTip = w.originDefaultTip ∧
      wA.repoExists = w.repoExists ∧
      wA.repo = w.repo ∧
      (wA.bare = w.bare ∨ wA.bare.commits = w.originCommits) ∧
      (ops = [] ∨ ops = [.cloneBare cfg.repo_url]) ∧
      (w.bareExists = true → wA = w ∧ ops = []) := by
  by_cases hb : w.bareExists
  · exact ⟨w, [], by simp [clone_bare_repo_if_required, hb], hb, rfl, rfl, rfl, rfl, rfl,
      Or.inl rfl, Or.inl rfl, fun _ => ⟨rfl, rfl⟩⟩
  · exact ⟨{ w with bareExists := true, bare := { commits := w.originCommits, trackingTip := w.originTrackingTip, head := w.originDefaultTip, index := w.originDefaultTip, worktree := w.originDefaultTip } },
      [.cloneBare cfg.repo_url],
      by simp [clone_bare_repo_if_required, hb], rfl, rfl, rfl, rfl, rfl, rfl,
      Or.inr rfl, Or.inr rfl, fun h => absurd h (by simp [hb])⟩

/-- What `_ensure_version_in_bare_repo` does when the commit is reachable
from origin or already cached: it succeeds, afterwards the mirror has the
commit, everything but the mirror is untouched, at most one fetch happened,
and no operation at all happened when the commit was already cached. -/
theorem ensure_spec (cfg : BundleConfig) (w : GitWorld) (v : String)
    (hv : cfg.version = some v) (hne : v ≠ "")
    (hmem : v ∈ w.bare.commits ∨ v ∈ w.originCommits) :
    ∃ wB ops,
      ensure_version_in_bare_repo cfg w = .pass wB ops ∧
      v ∈ wB.bare.commits ∧
      wB.originCommits = w.originCommits ∧
      wB.originTrackingTip = w.originTrackingTip ∧
      wB.originDefaultTip = w.originDefaultTip ∧
      wB.bareExists = w.bareExists ∧
      wB.repoExists = w.repoExists ∧
      wB.repo = w.repo ∧
      (ops = [] ∨ ops = [.fetchBareAllBranches]) ∧
      (has_version w.bare v = true → wB = w ∧ ops = []) := by
  have hbe : (v == "") = false := by simp [hne]
  by_cases hbv : has_version w.bare v
  · exact ⟨w, [], by simp [ensure_version_in_bare_repo, hv, hbe, hbv], (has_version_iff _ _).mp hbv,
      rfl, rfl, rfl, rfl, rfl, rfl, Or.inl rfl, fun _ => ⟨rfl, rfl⟩⟩
  · have hmem' : v ∈ w.bare.commits ++ w.originCommits := by
      rcases hmem with h | h
      · exact List.mem_append_left _ h
      · exact List.mem_append_right _ h
    have hbv' : has_version ({ w.bare with commits := w.bare.commits ++ w.originCommits, trackingTip := w.originTrackingTip }) v = true := by
      simpa [has_version] using hmem'
    exact ⟨{ w with bare := { w.bare with commits := w.bare.commits ++ w.originCommits, trackingTip := w.originTrackingTip } },
      [.fetchBareAllBranches],
      by simp [ensure_version_in_bare_repo, hv, hbe, hbv, hbv'],
      by simpa using hmem', rfl, rfl, rfl, rfl, rfl, rfl,
      Or.inr rfl, fun h => absurd h (by simp [hbv])⟩

/-- What `_clone_repo_if_required` does: it never fails, afterwards the
working copy exists, the mirror is untouched, and either the working copy
was already there (opened as-is, no operation) or it is a fresh local clone
of the mirror. -/
theorem clone_repo_spec (cfg : BundleConfig) (w : GitWorld) :
    ∃ wC ops,
      clone_repo_if_required cfg w = .pass wC ops ∧
      wC.repoExists = true ∧
      wC.bare = w.bare ∧
      wC.bareExists = w.bareExists ∧
      wC.originCommits = w.originCommits ∧
      wC.originTrackingTip = w.originTrackingTip ∧
      (wC.repo = w.repo ∨ wC.repo.commits = w.bare.commits) ∧
      (ops = [] ∨ ops = [.cloneWorkingCopy (bare_repo_path cfg)]) ∧
      (w.repoExists = true → wC = w ∧ ops = []) := by
  by_cases hr : w.repoExists
  · exact ⟨w, [], by simp [clone_repo_if_required, hr], hr, rfl, rfl, rfl, rfl,
      Or.inl rfl, Or.inl rfl, fun _ => ⟨rfl, rfl⟩⟩
  · exact ⟨{ w with repoExists := true, repo := { commits := w.bare.commits, trackingTip := w.bare.trackingTip, head := w.bare.head, index := w.bare.head, worktree := w.bare.head } },
      [.cloneWorkingCopy (bare_repo_path cfg)],
      by simp [clone_repo_if_required, hr], rfl, rfl, rfl, rfl, rfl,
      Or.inr rfl, Or.inr rfl, fun h => absurd h (by simp [hr])⟩

/-- Checkout of the tracking ref, as an explicit equation. -/
theorem checkout_eq (cfg : BundleConfig) (w : GitWorld) :
    checkout_tracking cfg w =
      .pass { w with repo := { w.repo with head := w.repo.trackingTip } }
        [.checkout cfg.tracking_ref] := rfl

/-- What the pinned branch of `__init__` does when the commit is resolvable
in the working copy or the mirror: it succeeds, afterwards the working
copy's HEAD, index and working tree are all at the pinned commit, the
mirror is untouched, and the detach-and-reset is preceded by exactly one
local fetch exactly when the commit was not already resolvable. -/
theorem pin_spec (cfg : BundleConfig) (w : GitWorld) (v : String)
    (hv : cfg.version = some v)
    (hmem : v ∈ w.repo.commits ∨ v ∈ w.bare.commits) :
    ∃ wE ops,
      pin_version cfg w = .pass wE ops ∧
      wE.repo.head = v ∧ wE.repo.index = v ∧ wE.repo.worktree = v ∧
      v ∈ wE.repo.commits ∧
      wE.bare = w.bare ∧ wE.bareExists = w.bareExists ∧ wE.repoExists = w.repoExists ∧
      (ops = [.setHeadAndReset v] ∨ ops = [.fetchWorkingCopy, .setHeadAndReset v]) ∧
      (has_version w.repo v = true →
        wE = { w with repo := { w.repo with head := v, index := v, worktree := v } } ∧
        ops = [.setHeadAndReset v]) ∧
      (has_version w.repo v = false → ops = [.fetchWorkingCopy, .setHeadAndReset v]) := by
  by_cases hrv : has_version w.repo v
  · exact ⟨{ w with repo := { w.repo with head := v, index := v, worktree := v } },
      [.setHeadAndReset v],
      by simp [pin_version, hv, hrv, StepResult.andThen, StepResult.pass],
      rfl, rfl, rfl, (has_version_iff _ _).mp hrv, rfl, rfl, rfl,
      Or.inl rfl, fun _ => ⟨rfl, rfl⟩, fun h => absurd hrv (by simp [h])⟩
  · have hmem' : v ∈ w.repo.commits ++ w.bare.commits := by
      rcases hmem with h | h
      · exact List.mem_append_left _ h
      · exact List.mem_append_right _ h
    have hrv' : has_version ({ w.repo with commits := w.repo.commits ++ w.bare.commits }) v = true := by
      simpa [has_version] using hmem'
    exact ⟨{ w with repo := { w.repo with commits := w.repo.commits ++ w.bare.commits, head := v, index := v, worktree := v } },
      [.fetchWorkingCopy, .setHeadAndReset v],
      by simp [pin_version, hv, hrv, hrv', StepResult.andThen, StepResult.pass],
      rfl, rfl, rfl, by simpa using hmem', rfl, rfl, rfl,
      Or.inr rfl, fun h => absurd h (by simp [hrv]), fun _ => rfl⟩

/-- Full effect of a pinned construction when the commit exists in origin:
no exception, HEAD, index and working tree at the pinned commit, both local
caches exist afterwards and both can resolve the commit. -/
theorem init_pinned_spec (cfg : BundleConfig) (w : GitWorld) (v : String)
    (hv : cfg.version = some v) (hne : v ≠ "") (hmem : v ∈ w.originCommits) :
    (init cfg w).err = none ∧
    (init cfg w).world.repo.head = v ∧
    (init cfg w).world.repo.index = v ∧
    (init cfg w).world.repo.worktree = v ∧
    (init cfg w).world.bareExists = true ∧
    (init cfg w).world.repoExists = true ∧
    v ∈ (init cfg w).world.bare.commits ∧
    v ∈ (init cfg w).world.repo.commits := by
  have hpt : pyTruthy cfg.version = true := by simp [pyTruthy, hv, hne]
  have hbranch : ∀ w4 : GitWorld,
      (if pyTruthy cfg.version then pin_version cfg w4 else refresh cfg w4) =
        pin_version cfg w4 := by
    intro w4; rw [hpt]; exact if_pos rfl
  obtain ⟨wA, opsA, eA, hA1, hA2, hA3, hA4, hA5, hA6, hA7, hA8, hA9⟩ := clone_bare_spec cfg w
  have hmemA : v ∈ wA.bare.commits ∨ v ∈ wA.originCommits := by
    right; rw [hA2]; exact hmem
  obtain ⟨wB, opsB, eB, hBv, hB2, hB3, hB4, hB5, hB6, hB7, hB8, hB9⟩ :=
    ensure_spec cfg wA v hv hne hmemA
  obtain ⟨wC, opsC, eC, hC1, hC2, hC3, hC4, hC5, hC6, hC7, hC8⟩ := clone_repo_spec cfg wB
  have hmemD : v ∈ ({ wC with repo := { wC.repo with head := wC.repo.trackingTip } } : GitWorld).repo.commits ∨
      v ∈ ({ wC with repo := { wC.repo with head := wC.repo.trackingTip } } : GitWorld).bare.commits := by
    right; show v ∈ wC.bare.commits; rw [hC2]; exact hBv
  obtain ⟨wE, opsE, eE, hE1, hE2, hE3, hE4, hE5, hE6, hE7, hE8, hE9, hE10⟩ :=
    pin_spec cfg _ v hv hmemD
  have hinit : init cfg w =
      StepResult.mk wE (opsA ++ (opsB ++ (opsC ++ ([GitOp.checkout cfg.tracking_ref] ++ opsE)))) none := by
    simp only [init, eA, eB, eC, checkout_eq, hbranch, eE, StepResult.pass, mk_none_andThen]
  rw [hinit]
  refine ⟨rfl, hE1, hE2, hE3, ?_, ?_, ?_, hE4⟩
  · show wE.bareExists = true
    rw [hE6]
    show wC.bareExists = true
    rw [hC3, hB5, hA1]
  · show wE.repoExists = true
    rw [hE7]
    exact hC1
  · show v ∈ wE.bare.commits
    rw [hE5]
    show v ∈ wC.bare.commits
    rw [hC2]
    exact hBv

/-- When both caches exist and both already resolve the pinned commit,
construction is exactly a checkout followed by the detach-and-reset. -/
theorem init_all_cached (cfg : BundleConfig) (w : GitWorld) (v : String)
    (hv : cfg.version = some v) (hne : v ≠ "")
    (hb : w.bareExists = true) (hr : w.repoExists = true)
    (hvb : v ∈ w.bare.commits) (hvr : v ∈ w.repo.commits) :
    init cfg w = ⟨{ w with repo := { w.repo with head := v, index := v, worktree := v } },
      [.checkout cfg.tracking_ref, .setHeadAndReset v], none⟩ := by
  have hpt : pyTruthy cfg.version = true := by simp [pyTruthy, hv, hne]
  have hbranch : ∀ w4 : GitWorld,
      (if pyTruthy cfg.version then pin_version cfg w4 else refresh cfg w4) =
        pin_version cfg w4 := by
    intro w4; rw [hpt]; exact if_pos rfl
  have hbe : (v == "") = false := by simp [hne]
  have hbv : has_version w.bare v = true := (has_version_iff _ _).mpr hvb
  have e1 : clone_bare_repo_if_required cfg w = .pass w [] := by
    simp [clone_bare_repo_if_required, hb]
  have e2 : ensure_version_in_bare_repo cfg w = .pass w [] := by
    simp [ensure_version_in_bare_repo, hv, hbe, hbv]
  have e3 : clone_repo_if_required cfg w = .pass w [] := by
    simp [clone_repo_if_required, hr]
  have hrv : has_version ({ w with repo := { w.repo with head := w.repo.trackingTip } } : GitWorld).repo v = true := by
    simpa [has_version] using hvr
  have e5 : pin_version cfg ({ w with repo := { w.repo with head := w.repo.trackingTip } }) =
      .pass ({ w with repo := { w.repo with head := v, index := v, worktree := v } })
        [.setHeadAndReset v] := by
    simp [pin_version, hv, hrv, StepResult.andThen, StepResult.pass]
  simp [init, e1, e2, e3, checkout_eq, hbranch, e5, StepResult.pass, mk_none_andThen]

end GitBundle

namespace GitBundle

/-- Claim C1: for every pinned version present in the origin history,
construction succeeds, `get_current_version` afterwards returns exactly that
version, and the working copy's index and working tree are hard-reset to
match that commit's tree exactly. -/
theorem construction_pinned_exact_version (cfg : BundleConfig) (w : GitWorld) (v : String)
    (hv : cfg.version = some v) (hne : v ≠ "") (hmem : v ∈ w.originCommits) :
    (init cfg w).err = none ∧
    get_current_version (init cfg w).world = v ∧
    (init cfg w).world.repo.index = v ∧
    (init cfg w).world.repo.worktree = v := by
  obtain ⟨h1, h2, h3, h4, -, -, -, -⟩ := init_pinned_spec cfg w v hv hne hmem
  exact ⟨h1, h2, h3, h4⟩

/-- Witness for C1 at a concrete configuration and world. -/
theorem construction_pinned_exact_version_witness :
    (init sampleCfg sampleWorld).err = none ∧
    get_current_version (init sampleCfg sampleWorld).world = "deadbeef" ∧
    (init sampleCfg sampleWorld).world.repo.index = "deadbeef" ∧
    (init sampleCfg sampleWorld).world.repo.worktree = "deadbeef" :=
  construction_pinned_exact_version sampleCfg sampleWorld "deadbeef" rfl (by decide) (by decide)

/-- Claim C2: with a pinned commit absent from the mirror, the
mirror-ensuring step performs exactly one all-branch fetch, re-checks, and
raises `versionNotFound` when the commit is still absent; when the commit is
already present no fetch happens; in the still-absent case construction as a
whole fails with `versionNotFound`. -/
theorem ensure_version_fetch_policy (cfg : BundleConfig) (w : GitWorld) (v : String)
    (hv : cfg.version = some v) (hne : v ≠ "") :
    (has_version w.bare v = true → ensure_version_in_bare_repo cfg w = .pass w []) ∧
    (has_version w.bare v = false →
      (ensure_version_in_bare_repo cfg w).ops = [.fetchBareAllBranches]) ∧
    (has_version w.bare v = false → v ∈ w.bare.commits ++ w.originCommits →
      (ensure_version_in_bare_repo cfg w).err = none) ∧
    (has_version w.bare v = false → v ∉ w.bare.commits ++ w.originCommits →
      (ensure_version_in_bare_repo cfg w).err = some (.versionNotFound v)) ∧
    (w.bareExists = true → v ∉ w.bare.commits ++ w.originCommits →
      (init cfg w).err = some (.versionNotFound v)) := by
  have hbe : (v == "") = false := by simp [hne]
  have habsent : v ∉ w.bare.commits ++ w.originCommits →
      has_version ({ w.bare with commits := w.bare.commits ++ w.originCommits, trackingTip := w.originTrackingTip }) v = false := by
    intro hmem
    rw [Bool.eq_false_iff]
    intro h'
    exact hmem (by simpa [has_version] using h')
  refine ⟨?_, ?_, ?_, ?_, ?_⟩
  · intro h
    simp [ensure_version_in_bare_repo, hv, hbe, h]
  · intro h
    by_cases hm : has_version ({ w.bare with commits := w.bare.commits ++ w.originCommits, trackingTip := w.originTrackingTip }) v
    · simp [ensure_version_in_bare_repo, hv, hbe, h, hm, StepResult.pass]
    · simp [ensure_version_in_bare_repo, hv, hbe, h, hm, StepResult.pass]
  · intro h hmem
    have hm : has_version ({ w.bare with commits := w.bare.commits ++ w.originCommits, trackingTip := w.originTrackingTip }) v = true := by
      simpa [has_version] using hmem
    simp [ensure_version_in_bare_repo, hv, hbe, h, hm, StepResult.pass]
  · intro h hmem
    simp [ensure_version_in_bare_repo, hv, hbe, h, habsent hmem]
  · intro hb hmem
    have hvb : has_version w.bare v = false := by
      rw [Bool.eq_false_iff]
      intro h'
      exact hmem (List.mem_append_left _ ((has_version_iff _ _).mp h'))
    have e1 : clone_bare_repo_if_required cfg w = .pass w [] := by
      simp [clone_bare_repo_if_required, hb]
    have e2 : ensure_version_in_bare_repo cfg w =
        ⟨{ w with bare := { w.bare with commits := w.bare.commits ++ w.originCommits, trackingTip := w.originTrackingTip } },
          [.fetchBareAllBranches], some (.versionNotFound v)⟩ := by
      simp [ensure_version_in_bare_repo, hv, hbe, hvb, habsent hmem]
    simp [init, e1, StepResult.pass, mk_none_andThen, e2, raise_andThen]

/-- Witness for C2: a pinned commit absent from a stale mirror and from
origin makes the ensure step fetch once and fail, and construction fail. -/
theorem ensure_version_fetch_policy_witness :
    (ensure_version_in_bare_repo missingCfg staleMirrorWorld).ops = [.fetchBareAllBranches] ∧
    (ensure_version_in_bare_repo missingCfg staleMirrorWorld).err =
      some (.versionNotFound "feedface") ∧
    (init missingCfg staleMirrorWorld).err = some (.versionNotFound "feedface") :=
  ⟨(ensure_version_fetch_policy missingCfg staleMirrorWorld "feedface" rfl (by decide)).2.1 (by decide),
   (ensure_version_fetch_policy missingCfg staleMirrorWorld "feedface" rfl (by decide)).2.2.2.1 (by decide) (by decide),
   (ensure_version_fetch_policy missingCfg staleMirrorWorld "feedface" rfl (by decide)).2.2.2.2 (by decide) (by decide)⟩

/-- Claim C3: `refresh()` on an instance holding a pinned (truthy) version
raises `refreshNotSupported` immediately, leaving the world untouched and
performing no git operation at all (no fetch, no pull). -/
theorem refresh_pinned_rejected (cfg : BundleConfig) (w : GitWorld)
    (h : pyTruthy cfg.version = true) :
    refresh cfg w = ⟨w, [], some .refreshNotSupported⟩ := by
  simp [refresh, h]

/-- Witness for C3 at a concrete pinned configuration. -/
theorem refresh_pinned_rejected_witness :
    refresh sampleCfg sampleWorld = ⟨sampleWorld, [], some .refreshNotSupported⟩ :=
  refresh_pinned_rejected sampleCfg sampleWorld (by decide)

/-- Claim C4: an existing mirror or working copy is only opened, never
re-cloned; re-running construction on the state a successful pinned
construction left behind performs only a checkout and a detach-and-reset —
no clone and no fetch — succeeds, and reports the same current version. -/
theorem reconstruction_no_reclone (cfg : BundleConfig) (w : GitWorld) (v : String)
    (hv : cfg.version = some v) (hne : v ≠ "") (hmem : v ∈ w.originCommits) :
    (w.bareExists = true → (clone_bare_repo_if_required cfg w).ops = []) ∧
    (w.repoExists = true → (clone_repo_if_required cfg w).ops = []) ∧
    (init cfg w).err = none ∧
    (init cfg (init cfg w).world).err = none ∧
    (init cfg (init cfg w).world).ops = [.checkout cfg.tracking_ref, .setHeadAndReset v] ∧
    get_current_version (init cfg (init cfg w).world).world =
      get_current_version (init cfg w).world := by
  obtain ⟨h1, h2, -, -, hb1, hr1, hvb1, hvr1⟩ := init_pinned_spec cfg w v hv hne hmem
  have e2 := init_all_cached cfg (init cfg w).world v hv hne hb1 hr1 hvb1 hvr1
  refine ⟨?_, ?_, h1, ?_, ?_, ?_⟩
  · intro h
    simp [clone_bare_repo_if_required, h, StepResult.pass]
  · intro h
    simp [clone_repo_if_required, h, StepResult.pass]
  · rw [e2]
  · rw [e2]
  · rw [e2]
    exact h2.symm

/-- Witness for C4 at a concrete configuration and world. -/
theorem reconstruction_no_reclone_witness :
    (init sampleCfg (init sampleCfg sampleWorld).world).err = none ∧
    (init sampleCfg (init sampleCfg sampleWorld).world).ops =
      [.checkout "main", .setHeadAndReset "deadbeef"] ∧
    get_current_version (init sampleCfg (init sampleCfg sampleWorld).world).world =
      get_current_version (init sampleCfg sampleWorld).world :=
  ⟨(reconstruction_no_reclone sampleCfg sampleWorld "deadbeef" rfl (by decide) (by decide)).2.2.2.1,
   (reconstruction_no_reclone sampleCfg sampleWorld "deadbeef" rfl (by decide) (by decide)).2.2.2.2.1,
   (reconstruction_no_reclone sampleCfg sampleWorld "deadbeef" rfl (by decide) (by decide)).2.2.2.2.2⟩

/-- Claim C5: the four `view_url` example equations — a github https URL
links through the tree path segment, an ssh gitlab URL is converted and
links through the gitlab dash-tree path segment, an unknown host yields no
link, and a missing version yields no link for any source URL. -/
theorem view_url_examples :
    view_url "https://github.com/org/repo" (some "abc123") =
      .ok (some "https://github.com/org/repo/tree/abc123") ∧
    view_url "git@gitlab.com:org/repo.git" (some "v1") =
      .ok (some "https://gitlab.com/org/repo/-/tree/v1") ∧
    view_url "https://example.com/org/repo" (some "abc123") = .ok none ∧
    ∀ url, view_url url none = .ok none :=
  ⟨rfl, rfl, rfl, fun _ => rfl⟩

/-- Claim C6 counterexample: the conversion does not split only on the first
colon (text after a second colon is dropped) and does not strip only a
trailing `.git` suffix (every occurrence is removed): on
`git@example.com:a.github/repo:extra` the code produces
`https://example.com/ahub/repo`, not the `https://example.com/a.github/repo:extra`
the claim requires; and a non-`git` user prefix is rejected rather than
converted. -/
theorem convert_ssh_counterexample :
    convert_git_ssh_url_to_https "git@example.com:a.github/repo:extra" =
      .ok "https://example.com/ahub/repo" ∧
    "https://example.com/ahub/repo" ≠ "https://example.com/a.github/repo:extra" ∧
    convert_git_ssh_url_to_https "alice@example.com:org/repo" =
      .error .invalidSourceURL :=
  ⟨rfl, by decide, rfl⟩

/-- Claim C6 as amended: for a URL with the `git@` prefix the conversion
splits on every `:`, uses the segment between the first and second `:` as
the path (discarding anything after a second `:`), replaces every `git@`
occurrence in the first segment with `https://`, and removes every `.git`
occurrence from the path; URLs without the `git@` prefix are rejected with
the `invalidSourceURL` `ValueError`. -/
theorem convert_ssh_characterized (url : String) :
    (pyStartsWith url "git@" = false →
      convert_git_ssh_url_to_https url = .error .invalidSourceURL) ∧
    (∀ p0 p1 rest, pyStartsWith url "git@" = true → pySplit ":" url = p0 :: p1 :: rest →
      convert_git_ssh_url_to_https url =
        .ok (pyReplace p0 "git@" "https://" ++ "/" ++ pyReplace p1 ".git" "")) := by
  constructor
  · intro h
    simp [convert_git_ssh_url_to_https, h]
  · intro p0 p1 rest h hs
    simp [convert_git_ssh_url_to_https, h, hs]

/-- Witness for C6 amended, at a rejected URL and at a converted URL. -/
theorem convert_ssh_characterized_witness :
    convert_git_ssh_url_to_https "https://github.com/org/repo" =
      .error .invalidSourceURL ∧
    convert_git_ssh_url_to_https "git@gitlab.com:org/repo.git" =
      .ok (pyReplace "git@gitlab.com" "git@" "https://" ++ "/" ++
        pyReplace "org/repo.git" ".git" "") :=
  ⟨(convert_ssh_characterized "https://github.com/org/repo").1 (by decide),
   (convert_ssh_characterized "git@gitlab.com:org/repo.git").2 "git@gitlab.com" "org/repo.git" []
     (by decide) (by decide)⟩

/-- Claim C7 counterexample: on a `git@` URL with no colon, `view_url` with
a non-empty version fails with the uncaught `IndexError` from `parts[1]`,
which is not the `invalidSourceURL` `ValueError` the claim names. -/
theorem view_url_missing_colon_counterexample :
    view_url "git@hostnopath" (some "v1") = .error .indexError ∧
    BundleError.indexError ≠ BundleError.invalidSourceURL :=
  ⟨rfl, by decide⟩

/-- Claim C7 as amended: for every source URL that starts with `git@` but
contains no `:` (its colon-split is the whole URL), `view_url` with a
non-empty version fails — with the uncaught `IndexError`, not with the
`invalidSourceURL` `ValueError` — and returns no malformed link. -/
theorem view_url_missing_colon (url v : String)
    (hgit : pyStartsWith url "git@" = true)
    (hcolon : pySplit ":" url = [url]) (hv : v ≠ "") :
    view_url url (some v) = .error .indexError := by
  have hbe : (v == "") = false := by simp [hv]
  simp [view_url, hbe, hgit, convert_git_ssh_url_to_https, hcolon]

/-- Witness for C7 amended at a concrete colon-free ssh URL. -/
theorem view_url_missing_colon_witness :
    view_url "git@onlyhost" (some "abc") = .error .indexError :=
  view_url_missing_colon "git@onlyhost" "abc" (by decide) (by decide) (by decide)

/-- Claim C8: the mirror path depends on the bundle name alone (it is the
same whatever the pinned version), while the working-copy path appends the
version after a `+`, so two distinct pinned versions of the same named
source always get distinct working-copy paths. -/
theorem cache_path_naming (cfg : BundleConfig) (v1 v2 : String)
    (h1 : v1 ≠ "") (h2 : v2 ≠ "") (hne : v1 ≠ v2) :
    bare_repo_path { cfg with version := some v1 } =
      bare_repo_path { cfg with version := some v2 } ∧
    repo_path { cfg with version := some v1 } =
      cfg.root_storage_path ++ "/git/" ++ (cfg.name ++ "+" ++ v1) ∧
    repo_path { cfg with version := some v1 } ≠
      repo_path { cfg with version := some v2 } := by
  have hp1 : pyOrElse (some v1) cfg.tracking_ref = v1 := by simp [pyOrElse, h1]
  have hp2 : pyOrElse (some v2) cfg.tracking_ref = v2 := by simp [pyOrElse, h2]
  refine ⟨rfl, ?_, ?_⟩
  · show cfg.root_storage_path ++ "/git/" ++ (cfg.name ++ "+" ++ pyOrElse (some v1) cfg.tracking_ref) = _
    rw [hp1]
  · intro hcontra
    have hd := congrArg String.data hcontra
    simp only [repo_path, hp1, hp2, String.data_append] at hd
    simp at hd
    exact hne (String.ext hd)

/-- Witness for C8 at two concrete distinct versions. -/
theorem cache_path_naming_witness :
    bare_repo_path { sampleCfg with version := some "deadbeef" } =
      bare_repo_path { sampleCfg with version := some "cafe" } ∧
    repo_path { sampleCfg with version := some "deadbeef" } =
      sampleCfg.root_storage_path ++ "/git/" ++ (sampleCfg.name ++ "+" ++ "deadbeef") ∧
    repo_path { sampleCfg with version := some "deadbeef" } ≠
      repo_path { sampleCfg with version := some "cafe" } :=
  cache_path_naming sampleCfg "deadbeef" "cafe" (by decide) (by decide) (by decide)

/-- Claim C9: a missing working copy is cloned with the mirror's local path
as its source URL — the only operation performed is that local clone, and it
is not a network operation. -/
theorem working_copy_cloned_from_mirror (cfg : BundleConfig) (w : GitWorld)
    (h : w.repoExists = false) :
    (clone_repo_if_required cfg w).ops = [.cloneWorkingCopy (bare_repo_path cfg)] ∧
    ∀ op ∈ (clone_repo_if_required cfg w).ops, op.isNetwork = false := by
  have e : (clone_repo_if_required cfg w).ops = [.cloneWorkingCopy (bare_repo_path cfg)] := by
    simp [clone_repo_if_required, h, StepResult.pass]
  refine ⟨e, ?_⟩
  rw [e]
  intro op hop
  rw [List.mem_singleton.mp hop]
  rfl

/-- Witness for C9 at a concrete world without a working copy. -/
theorem working_copy_cloned_from_mirror_witness :
    (clone_repo_if_required sampleCfg sampleWorld).ops =
      [.cloneWorkingCopy (bare_repo_path sampleCfg)] ∧
    ∀ op ∈ (clone_repo_if_required sampleCfg sampleWorld).ops, op.isNetwork = false :=
  working_copy_cloned_from_mirror sampleCfg sampleWorld (by decide)

end GitBundle

namespace GitBundle

/-- Claim C10: during pinned construction over an existing working copy that
cannot yet resolve the pinned commit, the trace ends with the checkout of
the tracking ref, then exactly one fetch from the working copy's origin (the
local mirror), then the detach-and-hard-reset; no other fetch of the working
copy happens, construction succeeds and ends at the pinned commit. -/
theorem stale_working_copy_single_fetch (cfg : BundleConfig) (w : GitWorld) (v : String)
    (hv : cfg.version = some v) (hne : v ≠ "") (hmem : v ∈ w.originCommits)
    (hre : w.repoExists = true) (hstale : has_version w.repo v = false) :
    ∃ pre, (init cfg w).ops =
        pre ++ [.checkout cfg.tracking_ref, .fetchWorkingCopy, .setHeadAndReset v] ∧
      GitOp.fetchWorkingCopy ∉ pre ∧
      (init cfg w).err = none ∧
      get_current_version (init cfg w).world = v := by
  have hpt : pyTruthy cfg.version = true := by simp [pyTruthy, hv, hne]
  have hbranch : ∀ w4 : GitWorld,
      (if pyTruthy cfg.version then pin_version cfg w4 else refresh cfg w4) =
        pin_version cfg w4 := by
    intro w4; rw [hpt]; exact if_pos rfl
  obtain ⟨wA, opsA, eA, hA1, hA2, hA3, hA4, hA5, hA6, hA7, hA8, hA9⟩ := clone_bare_spec cfg w
  have hmemA : v ∈ wA.bare.commits ∨ v ∈ wA.originCommits := by
    right; rw [hA2]; exact hmem
  obtain ⟨wB, opsB, eB, hBv, hB2, hB3, hB4, hB5, hB6, hB7, hB8, hB9⟩ :=
    ensure_spec cfg wA v hv hne hmemA
  have hBre : wB.repoExists = true := by rw [hB6, hA5]; exact hre
  obtain ⟨wC, opsC, eC, hC1, hC2, hC3, hC4, hC5, hC6, hC7, hC8⟩ := clone_repo_spec cfg wB
  obtain ⟨hCeq, hCops⟩ := hC8 hBre
  subst hCeq
  subst hCops
  have hrepoeq : wC.repo = w.repo := by rw [hB7, hA6]
  have hstaleD : has_version ({ wC with repo := { wC.repo with head := wC.repo.trackingTip } } : GitWorld).repo v = false := by
    show has_version ({ wC.repo with head := wC.repo.trackingTip }) v = false
    simp only [has_version] at hstale ⊢
    show wC.repo.commits.contains v = false
    rw [hrepoeq]
    exact hstale
  have hmemD : v ∈ ({ wC with repo := { wC.repo with head := wC.repo.trackingTip } } : GitWorld).repo.commits ∨
      v ∈ ({ wC with repo := { wC.repo with head := wC.repo.trackingTip } } : GitWorld).bare.commits := by
    right; exact hBv
  obtain ⟨wE, opsE, eE, hE1, hE2, hE3, hE4, hE5, hE6, hE7, hE8, hE9, hE10⟩ :=
    pin_spec cfg _ v hv hmemD
  have hopsE : opsE = [.fetchWorkingCopy, .setHeadAndReset v] := hE10 hstaleD
  have hinit : init cfg w =
      StepResult.mk wE (opsA ++ (opsB ++ ([] ++ ([GitOp.checkout cfg.tracking_ref] ++ opsE)))) none := by
    simp only [init, eA, eB, eC, checkout_eq, hbranch, eE, StepResult.pass, mk_none_andThen]
  refine ⟨opsA ++ opsB, ?_, ?_, ?_, ?_⟩
  · rw [hinit, hopsE]
    simp [List.append_assoc]
  · intro hmemPre
    rcases List.mem_append.mp hmemPre with h | h
    · rcases hA8 with h' | h' <;> subst h' <;> simp at h
    · rcases hB8 with h' | h' <;> subst h' <;> simp at h
  · rw [hinit]
  · rw [hinit]
    exact hE1

/-- Witness for C10 at a concrete stale working copy. -/
theorem stale_working_copy_single_fetch_witness :
    ∃ pre, (init sampleCfg sampleWorldReady).ops =
        pre ++ [.checkout "main", .fetchWorkingCopy, .setHeadAndReset "deadbeef"] ∧
      GitOp.fetchWorkingCopy ∉ pre ∧
      (init sampleCfg sampleWorldReady).err = none ∧
      get_current_version (init sampleCfg sampleWorldReady).world = "deadbeef" :=
  stale_working_copy_single_fetch sampleCfg sampleWorldReady "deadbeef" rfl (by decide)
    (by decide) (by decide) (by decide)

end GitBundle
